import Mathlib

/-!
Verification of the EyeCheck detection service (`app.py`).

The development shallowly embeds the detection-and-postprocessing pipeline:

* `pyInt` models Python's `int()` applied to a float: truncation toward zero
  (exact rational arithmetic stands in for the floats).
* `pyListGet` models Python list indexing `l[k]`, including negative indices
  counting from the end and `IndexError` (`none`) when out of range.
* `detFilterLoop` / `buildDetections` embed the confidence-filter loop of
  `tflite_detect_image` (lines 58-69): keep detections with
  `scores[i] > min_conf`, convert the normalized box to pixel coordinates,
  and resolve the class label.
* `sortByConfDesc` embeds `sorted(detections, key=confidence, reverse=True)`
  (line 71): a stable sort, descending by confidence.
* `disambiguate` embeds the left/right-eye relabeling (lines 74-87).
* `annotationLabel` embeds the text drawn per detection (line 92).
* `preprocess_image` embeds the decode-and-resize step (lines 35-40),
  with external collaborators (image decoding, the TFLite model, base64)
  as explicit function parameters.
* `detect` embeds the `POST /detect` handler (lines 103-128) and
  `get_image` / `putImage` the `GET /image/<filename>` handoff
  (lines 95-98 and 131-143).
-/

/-- Python's `int()` on a rational value: truncation toward zero.
Rationals are stored in lowest terms with positive denominator, so
truncating division of numerator by denominator is exact truncation. -/
def pyInt (q : ℚ) : ℤ := q.num.tdiv q.den

/-- Python list indexing `l[k]`: nonnegative indices from the front,
negative indices from the end, `none` (an `IndexError`) out of range. -/
def pyListGet {α : Type} (l : List α) (k : ℤ) : Option α :=
  if 0 ≤ k then l.get? k.toNat
  else if 0 ≤ k + l.length then l.get? (k + l.length).toNat
  else none

/-- Normalized model box, in the model's output order (ymin, xmin, ymax, xmax). -/
structure RawBox where
  y0 : ℚ
  x0 : ℚ
  y1 : ℚ
  x1 : ℚ
deriving Repr, DecidableEq

/-- A pixel-coordinate box, in the order the code stores it. -/
structure Box where
  xmin : ℤ
  ymin : ℤ
  xmax : ℤ
  ymax : ℤ
deriving Repr, DecidableEq

/-- One entry of the `detections` list built by `tflite_detect_image`. -/
structure Detection where
  object : String
  confidence : ℚ
  box : Box
deriving Repr, DecidableEq

/-- Exceptions the embedded code can raise. -/
inductive PyErr where
  | indexError
  | decodeError
deriving Repr, DecidableEq

instance exceptDecEq {ε α : Type} [DecidableEq ε] [DecidableEq α] :
    DecidableEq (Except ε α)
  | Except.ok a, Except.ok b =>
    if h : a = b then isTrue (by rw [h])
    else isFalse (by intro hc; cases hc; exact h rfl)
  | Except.ok _, Except.error _ => isFalse (by intro hc; cases hc)
  | Except.error _, Except.ok _ => isFalse (by intro hc; cases hc)
  | Except.error e, Except.error f =>
    if h : e = f then isTrue (by rw [h])
    else isFalse (by intro hc; cases hc; exact h rfl)

/-- Pixel-coordinate conversion of one kept box (src/app.py lines 60-63):
`ymin = int(max(1, y0*imH))`, `xmin = int(max(1, x0*imW))`,
`ymax = int(min(imH, y1*imH))`, `xmax = int(min(imW, x1*imW))`. -/
def pixelBox (b : RawBox) (imH imW : ℕ) : Box where
  xmin := pyInt (max 1 (b.x0 * imW))
  ymin := pyInt (max 1 (b.y0 * imH))
  xmax := pyInt (min (imW : ℚ) (b.x1 * imW))
  ymax := pyInt (min (imH : ℚ) (b.y1 * imH))

/-- The confidence-filter loop of `tflite_detect_image`
(src/app.py lines 58-69), iterating over the given indices
(`for i in range(len(scores))` passes `List.range scores.length`).
A detection is kept when `scores[i] > min_conf`; its label is
`labels[int(classes[i])]`, raising `IndexError` when that lookup
(or any of the raw-array lookups) is out of range. -/
def detFilterLoop (boxes : List RawBox) (classes scores : List ℚ)
    (labels : List String) (imH imW : ℕ) (minConf : ℚ) :
    List ℕ → Except PyErr (List Detection)
  | [] => Except.ok []
  | i :: is =>
    match scores.get? i with
    | none => Except.error PyErr.indexError
    | some s =>
      if minConf < s then
        match boxes.get? i, classes.get? i with
        | some b, some c =>
          match pyListGet labels (pyInt c) with
          | none => Except.error PyErr.indexError
          | some name =>
            match detFilterLoop boxes classes scores labels imH imW minConf is with
            | Except.error e => Except.error e
            | Except.ok ds => Except.ok (⟨name, s, pixelBox b imH imW⟩ :: ds)
        | _, _ => Except.error PyErr.indexError
      else detFilterLoop boxes classes scores labels imH imW minConf is

/-- Lines 57-69 of src/app.py: the full filter pass over all indices. -/
def buildDetections (boxes : List RawBox) (classes scores : List ℚ)
    (labels : List String) (imH imW : ℕ) (minConf : ℚ) :
    Except PyErr (List Detection) :=
  detFilterLoop boxes classes scores labels imH imW minConf
    (List.range scores.length)

/-- Stable insertion used to model Python's `sorted`: the inserted detection
precedes every list element in the original order, so it goes in front of
the first element whose confidence does not exceed its own. -/
def insertByConf (d : Detection) : List Detection → List Detection
  | [] => [d]
  | e :: es =>
    if e.confidence ≤ d.confidence then d :: e :: es
    else e :: insertByConf d es

/-- Python's `sorted(detections, key=lambda x: x['confidence'], reverse=True)`
(src/app.py line 71): a stable sort, descending by confidence. -/
def sortByConfDesc : List Detection → List Detection
  | [] => []
  | d :: ds => insertByConf d (sortByConfDesc ds)

/-- The horizontal box center `(xmin + xmax) / 2` (Python float division). -/
def centerX (d : Detection) : ℚ := ((d.box.xmin : ℚ) + (d.box.xmax : ℚ)) / 2

/-- The left/right-eye disambiguation (src/app.py lines 74-87), applied to
the sorted detection list: with exactly two detections the one with the
smaller center is relabeled `left_eye` (ties fall into the else branch);
with exactly one, the label depends on which image half holds the center;
otherwise labels are untouched. -/
def disambiguate (imW : ℕ) : List Detection → List Detection
  | [d0, d1] =>
    if centerX d0 < centerX d1 then
      [{ d0 with object := "left_eye" }, { d1 with object := "right_eye" }]
    else
      [{ d0 with object := "right_eye" }, { d1 with object := "left_eye" }]
  | [d] =>
    if centerX d < (imW : ℚ) / 2 then [{ d with object := "left_eye" }]
    else [{ d with object := "right_eye" }]
  | ds => ds

/-- Lines 57-87 of src/app.py: filter, sort descending by confidence, then
disambiguate left/right. -/
def postprocessDetections (boxes : List RawBox) (classes scores : List ℚ)
    (labels : List String) (imH imW : ℕ) (minConf : ℚ) :
    Except PyErr (List Detection) :=
  (buildDetections boxes classes scores labels imH imW minConf).map
    (fun ds => disambiguate imW (sortByConfDesc ds))

/-- The text drawn above one box (src/app.py line 92):
the f-string renders `object`, then ": ", then `int(confidence * 100)`,
then "%". -/
def annotationLabel (d : Detection) : String :=
  d.object ++ ": " ++ toString (pyInt (d.confidence * 100)) ++ "%"

/-- The labels drawn by the annotation loop (src/app.py lines 89-93). -/
def drawnLabels (dets : List Detection) : List String :=
  dets.map annotationLabel

/-- An 8-bit RGB pixel. -/
structure RGB where
  r : ℕ
  g : ℕ
  b : ℕ
deriving Repr, DecidableEq

/-- A decoded RGB image, as produced by `Image.open(...).convert('RGB')`:
a width, a height, and a pixel function. -/
structure DecodedImage where
  width : ℕ
  height : ℕ
  pixel : ℕ → ℕ → RGB

/-- PIL's `Image.resize(size)` takes `size = (new width, new height)`;
modelled with nearest-neighbour sampling (the resampling filter does not
matter for any claim, only the output size does). -/
def pilResize (img : DecodedImage) (w h : ℕ) : DecodedImage where
  width := w
  height := h
  pixel := fun x y => img.pixel (x * img.width / w) (y * img.height / h)

/-- NumPy's `np.array` of an RGB PIL image of size `(w, h)`: `h` rows of `w` pixels
(3 channels each, carried by `RGB`). -/
def npArrayOfImage (img : DecodedImage) : List (List RGB) :=
  (List.range img.height).map fun y =>
    (List.range img.width).map fun x => img.pixel x y

/-- The function `preprocess_image` (src/app.py lines 35-40): decode the bytes (the
external `Image.open` decoder is a parameter; failure raises), convert to
RGB and resize to `(input_shape[1], input_shape[2])` — note that PIL's
size argument is `(width, height)`. -/
def preprocess_image (decoder : List ℕ → Option DecodedImage)
    (imageBytes : List ℕ) (inputShape : List ℕ) :
    Except PyErr (List (List RGB)) :=
  match decoder imageBytes with
  | none => Except.error PyErr.decodeError
  | some img =>
    Except.ok (npArrayOfImage (pilResize img (inputShape.getD 1 0) (inputShape.getD 2 0)))

/-- The opaque TFLite model: a declared input shape and, for any
preprocessed array, output tensors (boxes, classes, scores). -/
structure TFModel where
  inputShape : List ℕ
  run : List (List RGB) → List RawBox × List ℚ × List ℚ

/-- The function `tflite_detect_image` (src/app.py lines 44-100), up to the returned
detection list: preprocess, read `imH, imW` from the array shape, run the
model, then filter, sort and disambiguate.  Any exception propagates. -/
def tflite_detect_image (decoder : List ℕ → Option DecodedImage)
    (model : TFModel) (labels : List String)
    (imageData : List ℕ) (minConf : ℚ) :
    Except PyErr (List Detection) :=
  match preprocess_image decoder imageData model.inputShape with
  | Except.error e => Except.error e
  | Except.ok arr =>
    let imH := arr.length
    let imW := (arr.headD []).length
    match model.run arr with
    | (boxes, classes, scores) =>
      postprocessDetections boxes classes scores labels imH imW minConf

/-- JSON bodies the handlers produce. -/
inductive JsonOut where
  | errorMsg (msg : String)
  | detectOk (dets : List Detection) (imageUrl : String)
deriving Repr, DecidableEq

/-- The outcome of one request: either a response with a status code, or an
exception that no handler caught (Flask then returns a 500). -/
inductive HandlerResult where
  | resp (status : ℕ) (body : JsonOut)
  | unhandled (e : PyErr)
deriving Repr, DecidableEq

/-- The `POST /detect` handler (src/app.py lines 103-128).  `imageField` is
the request JSON's `image` field when present; `b64decode` and the image
`decoder` are the external collaborators.  The pipeline call sits inside a
single-task thread pool whose `future.result()` re-raises any exception;
the handler has no try/except, so pipeline errors end `unhandled`. -/
def detect (decoder : List ℕ → Option DecodedImage) (model : TFModel)
    (labels : List String) (b64decode : String → List ℕ)
    (host tempFileName : String) (imageField : Option String) :
    HandlerResult :=
  match imageField with
  | none => HandlerResult.resp 400 (JsonOut.errorMsg "No image part")
  | some field =>
    let imageData := b64decode field
    if imageData.isEmpty then
      HandlerResult.resp 400 (JsonOut.errorMsg "No selected image")
    else
      match tflite_detect_image decoder model labels imageData (1/2) with
      | Except.error e => HandlerResult.unhandled e
      | Except.ok dets =>
        HandlerResult.resp 200 (JsonOut.detectOk dets
          ("http://" ++ host ++ "/image/" ++ tempFileName))

/-- The scratch directory used to hand images from `/detect` to
`/image/<filename>`: a map from filename to file contents. -/
def ImageStore : Type := String → Option (List ℕ)

/-- The annotator's write of the temp JPEG (src/app.py lines 95-98). -/
def putImage (store : ImageStore) (filename : String) (bytes : List ℕ) :
    ImageStore :=
  fun k => if k = filename then some bytes else store k

/-- What `GET /image/<filename>` can produce. -/
inductive ImageResponse where
  | fileBytes (bytes : List ℕ)
  | notFound (body : JsonOut)
deriving Repr, DecidableEq

/-- The `GET /image/<filename>` handler (src/app.py lines 131-143): 404 if
the file does not exist, otherwise serve the bytes and delete the file.
Returns the response together with the store left behind. -/
def get_image (store : ImageStore) (filename : String) :
    ImageResponse × ImageStore :=
  match store filename with
  | none => (ImageResponse.notFound (JsonOut.errorMsg "File not found"), store)
  | some bs =>
    (ImageResponse.fileBytes bs, fun k => if k = filename then none else store k)


/-- A tiny normalized box at the origin: its converted `ymax`/`xmax` land at
pixel 0, below the lower clamp applied only to `ymin`/`xmin`. -/
def tinyBox : RawBox := ⟨0, 0, 1/1000, 1/1000⟩

/-- The detection the filter produces from `tinyBox` with score 9/10 in a
200x200 image: xmax and ymax land below xmin and ymin. -/
def tinyDet : Detection := ⟨"eye", 9/10, ⟨1, 1, 0, 0⟩⟩

/-- Normalized box whose pixel box in a 200x200 image is (5,20)-(15,40),
horizontal center 10. -/
def eyeBoxA : RawBox := ⟨1/10, 1/40, 1/5, 3/40⟩

/-- Normalized box whose pixel box in a 200x200 image is (90,20)-(110,40),
horizontal center 100. -/
def eyeBoxB : RawBox := ⟨1/10, 9/20, 1/5, 11/20⟩

/-- The detection produced from `eyeBoxA` with score 9/10 and label "eye". -/
def eyeDetA : Detection := ⟨"eye", 9/10, ⟨5, 20, 15, 40⟩⟩

/-- The detection produced from `eyeBoxB` with score 4/5 and label "eye". -/
def eyeDetB : Detection := ⟨"eye", 4/5, ⟨90, 20, 110, 40⟩⟩

/-- Normalized box whose pixel box in a 200x200 image is (40,20)-(60,40),
horizontal center 50. -/
def tieBoxA : RawBox := ⟨1/10, 1/5, 1/5, 3/10⟩

/-- Normalized box whose pixel box in a 200x200 image is (45,20)-(55,40),
horizontal center 50 as well. -/
def tieBoxB : RawBox := ⟨1/10, 9/40, 1/5, 11/40⟩

/-- The detection produced from `tieBoxA` with score 9/10. -/
def tieDetA : Detection := ⟨"eye", 9/10, ⟨40, 20, 60, 40⟩⟩

/-- The detection produced from `tieBoxB` with score 4/5. -/
def tieDetB : Detection := ⟨"eye", 4/5, ⟨45, 20, 55, 40⟩⟩

/-- Normalized box whose pixel box in a 200x200 image is (30,20)-(50,40),
horizontal center 40, in the left half. -/
def oneEyeBox : RawBox := ⟨1/10, 3/20, 1/5, 1/4⟩

/-- The detection produced from `oneEyeBox` with score 9/10. -/
def oneEyeDet : Detection := ⟨"eye", 9/10, ⟨30, 20, 50, 40⟩⟩

/-- A detection with confidence 0.999, whose drawn percentage shows the
truncation-versus-rounding difference. -/
def pctDet : Detection := ⟨"left_eye", 999/1000, ⟨1, 1, 2, 2⟩⟩

/-- A model input shape whose declared height (3) and width (4) differ. -/
def cexShape : List ℕ := [1, 3, 4, 3]

/-- A concrete 2x2 decoded image of black pixels. -/
def cexImage : DecodedImage := ⟨2, 2, fun _ _ => ⟨0, 0, 0⟩⟩

/-- A decoder that accepts any bytes and yields `cexImage`. -/
def cexDecoder : List ℕ → Option DecodedImage := fun _ => some cexImage

/-- The array `preprocess_image` produces from `cexImage` and `cexShape`. -/
def cexArr : List (List RGB) := npArrayOfImage (pilResize cexImage 3 4)

/-- A decoder that rejects every byte string, as `Image.open` does on bytes
that are not a valid encoded image. -/
def failDecoder : List ℕ → Option DecodedImage := fun _ => none

/-- A model with a fixed declared shape and empty outputs. -/
def cexModel : TFModel := ⟨[1, 3, 4, 3], fun _ => ([], [], [])⟩

/-- A base64 decoder stub that yields one byte for any field value. -/
def oneByte : String → List ℕ := fun _ => [0]

/-- Observer for the spec's claimed behaviour: is the handler result an HTTP
400 response? -/
def isResp400 : HandlerResult → Bool
  | HandlerResult.resp 400 _ => true
  | _ => false
theorem pyInt_eq_floor {q : ℚ} (h : 0 ≤ q) : pyInt q = ⌊q⌋ := by
  rw [pyInt, Rat.floor_def]
  exact Int.tdiv_eq_ediv (Rat.num_nonneg.mpr h) (Int.natCast_nonneg _)

theorem pyInt_neg (q : ℚ) : pyInt (-q) = -pyInt q := by
  simp [pyInt, Rat.neg_num, Rat.neg_den, Int.neg_tdiv]

theorem pyInt_eq_ceil {q : ℚ} (h : q ≤ 0) : pyInt q = ⌈q⌉ := by
  have h1 : pyInt q = -pyInt (-q) := by rw [pyInt_neg, neg_neg]
  rw [h1, pyInt_eq_floor (by simpa using h), ← Int.ceil_neg, neg_neg]

theorem le_pyInt {n : ℤ} {q : ℚ} (hn : 0 ≤ n) (h : (n : ℚ) ≤ q) :
    n ≤ pyInt q := by
  have hq : 0 ≤ q := le_trans (by exact_mod_cast hn) h
  rw [pyInt_eq_floor hq]
  exact Int.le_floor.mpr h

theorem pyInt_le {q : ℚ} {n : ℤ} (h : q ≤ (n : ℚ)) : pyInt q ≤ n := by
  rcases le_or_lt 0 q with hq | hq
  · rw [pyInt_eq_floor hq]
    calc ⌊q⌋ ≤ ⌊(n : ℚ)⌋ := Int.floor_mono h
    _ = n := Int.floor_intCast n
  · rw [pyInt_eq_ceil hq.le]
    exact Int.ceil_le.mpr h


theorem one_le_pixelBox_xmin (b : RawBox) (imH imW : ℕ) :
    1 ≤ (pixelBox b imH imW).xmin :=
  le_pyInt (by norm_num) (by exact_mod_cast le_max_left 1 (b.x0 * imW))

theorem one_le_pixelBox_ymin (b : RawBox) (imH imW : ℕ) :
    1 ≤ (pixelBox b imH imW).ymin :=
  le_pyInt (by norm_num) (by exact_mod_cast le_max_left 1 (b.y0 * imH))

theorem pixelBox_xmax_le (b : RawBox) (imH imW : ℕ) :
    (pixelBox b imH imW).xmax ≤ (imW : ℤ) :=
  pyInt_le (by push_cast; exact min_le_left _ _)

theorem pixelBox_ymax_le (b : RawBox) (imH imW : ℕ) :
    (pixelBox b imH imW).ymax ≤ (imH : ℤ) :=
  pyInt_le (by push_cast; exact min_le_left _ _)


example : pyInt (999/10) = 99 := by with_unfolding_all decide
example : pyInt (-999/10) = -99 := by with_unfolding_all decide
example : pyInt (1/5) = 0 := by with_unfolding_all decide
example : pyListGet ["a", "b"] (-1) = some "b" := by with_unfolding_all decide
example : pyListGet ["a", "b"] 2 = none := by with_unfolding_all decide
example :
    buildDetections [⟨0, 0, 1/1000, 1/1000⟩] [0] [9/10] ["eye"] 200 200 (1/2)
      = Except.ok [⟨"eye", 9/10, ⟨1, 1, 0, 0⟩⟩] := by with_unfolding_all decide

theorem mem_insertByConf (x d : Detection) (l : List Detection) :
    x ∈ insertByConf d l ↔ x = d ∨ x ∈ l := by
  induction l with
  | nil => simp [insertByConf]
  | cons e es ih =>
    simp only [insertByConf]
    split
    · simp [List.mem_cons]
    · simp only [List.mem_cons, ih]
      tauto

theorem pairwise_insertByConf (d : Detection) (l : List Detection)
    (h : l.Pairwise (fun a b => b.confidence ≤ a.confidence)) :
    (insertByConf d l).Pairwise (fun a b => b.confidence ≤ a.confidence) := by
  induction l with
  | nil => simp [insertByConf]
  | cons e es ih =>
    rw [List.pairwise_cons] at h
    simp only [insertByConf]
    split
    · rename_i hle
      refine List.Pairwise.cons ?_ (List.pairwise_cons.mpr h)
      intro x hx
      rcases List.mem_cons.mp hx with rfl | hx
      · exact hle
      · exact le_trans (h.1 x hx) hle
    · rename_i hgt
      refine List.Pairwise.cons ?_ (ih h.2)
      intro x hx
      rcases (mem_insertByConf x d es).mp hx with rfl | hx
      · exact (not_le.mp hgt).le
      · exact h.1 x hx

theorem pairwise_sortByConfDesc (l : List Detection) :
    (sortByConfDesc l).Pairwise (fun a b => b.confidence ≤ a.confidence) := by
  induction l with
  | nil => exact List.Pairwise.nil
  | cons d ds ih => exact pairwise_insertByConf d (sortByConfDesc ds) ih

theorem filter_insertByConf (d : Detection) (c : ℚ) (l : List Detection) :
    (insertByConf d l).filter (fun e => decide (e.confidence = c)) =
      if d.confidence = c
      then d :: l.filter (fun e => decide (e.confidence = c))
      else l.filter (fun e => decide (e.confidence = c)) := by
  induction l with
  | nil =>
    simp only [insertByConf, List.filter]
    by_cases hd : d.confidence = c <;> simp [hd]
  | cons e es ih =>
    simp only [insertByConf]
    split
    · rename_i hle
      by_cases hd : d.confidence = c <;>
        by_cases he : e.confidence = c <;>
          simp [List.filter_cons, hd, he]
    · rename_i hgt
      have hlt : d.confidence < e.confidence := not_le.mp hgt
      by_cases hd : d.confidence = c
      · have he : ¬ e.confidence = c := by
          intro hc
          rw [hd, ← hc] at hlt
          exact lt_irrefl _ hlt
        simp [List.filter_cons, ih, hd, he]
      · by_cases he : e.confidence = c <;>
          simp [List.filter_cons, ih, hd, he]

theorem filter_sortByConfDesc (c : ℚ) (l : List Detection) :
    (sortByConfDesc l).filter (fun e => decide (e.confidence = c)) =
      l.filter (fun e => decide (e.confidence = c)) := by
  induction l with
  | nil => rfl
  | cons d ds ih =>
    simp only [sortByConfDesc, filter_insertByConf, ih, List.filter_cons]
    by_cases hd : d.confidence = c <;> simp [hd]

theorem map_conf_disambiguate (imW : ℕ) (l : List Detection) :
    (disambiguate imW l).map Detection.confidence =
      l.map Detection.confidence := by
  match l with
  | [] => rfl
  | [d] =>
    simp only [disambiguate]
    split <;> rfl
  | [d0, d1] =>
    simp only [disambiguate]
    split <;> rfl
  | d0 :: d1 :: d2 :: t => rfl

theorem chain_of_postprocess (boxes : List RawBox) (classes scores : List ℚ)
    (labels : List String) (imH imW : ℕ) (minConf : ℚ) (l : List Detection)
    (h : postprocessDetections boxes classes scores labels imH imW minConf =
        Except.ok l) :
    l.Chain' (fun a b => b.confidence ≤ a.confidence) := by
  unfold postprocessDetections at h
  cases hb : buildDetections boxes classes scores labels imH imW minConf with
  | error e => rw [hb] at h; cases h
  | ok ds =>
    rw [hb] at h
    have hl : l = disambiguate imW (sortByConfDesc ds) := by
      cases h; rfl
    subst hl
    have hp : (sortByConfDesc ds).Chain'
        (fun a b => b.confidence ≤ a.confidence) :=
      (pairwise_sortByConfDesc ds).chain'
    have h1 : ((sortByConfDesc ds).map Detection.confidence).Chain'
        (fun x y => y ≤ x) := by
      rw [List.chain'_map]
      exact hp
    rw [← map_conf_disambiguate imW] at h1
    rw [List.chain'_map] at h1
    exact h1

theorem detFilterLoop_ok_mem (boxes : List RawBox) (classes scores : List ℚ)
    (labels : List String) (imH imW : ℕ) (minConf : ℚ) :
    ∀ (is : List ℕ) (ds : List Detection),
      detFilterLoop boxes classes scores labels imH imW minConf is =
          Except.ok ds →
      ∀ d ∈ ds, minConf < d.confidence ∧
        ∃ b : RawBox, d.box = pixelBox b imH imW := by
  intro is
  induction is with
  | nil =>
    intro ds h d hd
    simp only [detFilterLoop] at h
    cases h
    cases hd
  | cons i is ih =>
    intro ds h d hd
    simp only [detFilterLoop] at h
    split at h
    · cases h
    · split at h
      · split at h
        · split at h
          · cases h
          · split at h
            · cases h
            · cases h
              rcases List.mem_cons.mp hd with rfl | hd2
              · refine ⟨by assumption, ?_⟩
                exact ⟨_, rfl⟩
              · exact ih _ (by assumption) d hd2
        · cases h
      · exact ih ds h d hd

theorem detFilterLoop_error_iff (boxes : List RawBox) (classes scores : List ℚ)
    (labels : List String) (imH imW : ℕ) (minConf : ℚ)
    (hb : boxes.length = scores.length) (hc : classes.length = scores.length) :
    ∀ (is : List ℕ), (∀ i ∈ is, i < scores.length) →
      (detFilterLoop boxes classes scores labels imH imW minConf is =
          Except.error PyErr.indexError ↔
        ∃ i ∈ is, ∃ s, scores.get? i = some s ∧ minConf < s ∧
          ∃ c, classes.get? i = some c ∧ pyListGet labels (pyInt c) = none) := by
  intro is
  induction is with
  | nil =>
    intro _
    simp [detFilterLoop]
  | cons i is ih =>
    intro his
    have hi : i < scores.length := his i (List.mem_cons_self i is)
    have hisTail : ∀ j ∈ is, j < scores.length := fun j hj =>
      his j (List.mem_cons_of_mem i hj)
    obtain ⟨s, hs⟩ : ∃ s, scores.get? i = some s :=
      ⟨_, List.get?_eq_get hi⟩
    obtain ⟨b, hbs⟩ : ∃ b, boxes.get? i = some b :=
      ⟨_, List.get?_eq_get (by rw [hb]; exact hi)⟩
    obtain ⟨c, hcs⟩ : ∃ c, classes.get? i = some c :=
      ⟨_, List.get?_eq_get (by rw [hc]; exact hi)⟩
    simp only [detFilterLoop, hs, hbs, hcs]
    by_cases hk : minConf < s
    · rw [if_pos hk]
      cases hres : pyListGet labels (pyInt c) with
      | none =>
        constructor
        · intro _
          exact ⟨i, List.mem_cons_self i is, s, hs, hk, c, hcs, hres⟩
        · intro _
          rfl
      | some name =>
        cases hrec : detFilterLoop boxes classes scores labels imH imW minConf is with
        | error e =>
          constructor
          · intro he
            have he2 : e = PyErr.indexError := by
              cases he
              rfl
            subst he2
            obtain ⟨j, hj, rest⟩ := (ih hisTail).mp hrec
            exact ⟨j, List.mem_cons_of_mem i hj, rest⟩
          · intro hex
            obtain ⟨j, hj, s', hs', hk', c', hc', hres'⟩ := hex
            rcases List.mem_cons.mp hj with rfl | hj2
            · rw [hs] at hs'
              cases hs'
              rw [hcs] at hc'
              cases hc'
              rw [hres] at hres'
              cases hres'
            · have : detFilterLoop boxes classes scores labels imH imW minConf is =
                  Except.error PyErr.indexError :=
                (ih hisTail).mpr ⟨j, hj2, s', hs', hk', c', hc', hres'⟩
              rw [hrec] at this
              cases this
              rfl
        | ok ds1 =>
          constructor
          · intro he
            cases he
          · intro hex
            obtain ⟨j, hj, s', hs', hk', c', hc', hres'⟩ := hex
            rcases List.mem_cons.mp hj with rfl | hj2
            · rw [hs] at hs'
              cases hs'
              rw [hcs] at hc'
              cases hc'
              rw [hres] at hres'
              cases hres'
            · have : detFilterLoop boxes classes scores labels imH imW minConf is =
                  Except.error PyErr.indexError :=
                (ih hisTail).mpr ⟨j, hj2, s', hs', hk', c', hc', hres'⟩
              rw [hrec] at this
              cases this
    · rw [if_neg hk]
      rw [ih hisTail]
      constructor
      · intro hex
        obtain ⟨j, hj, rest⟩ := hex
        exact ⟨j, List.mem_cons_of_mem i hj, rest⟩
      · intro hex
        obtain ⟨j, hj, s', hs', hk', c', hc', hres'⟩ := hex
        rcases List.mem_cons.mp hj with rfl | hj2
        · rw [hs] at hs'
          cases hs'
          exact absurd hk' hk
        · exact ⟨j, hj2, s', hs', hk', c', hc', hres'⟩

theorem pyListGet_eq_none_iff {α : Type} (l : List α) (k : ℤ) :
    pyListGet l k = none ↔
      (k < -(l.length : ℤ) ∨ (l.length : ℤ) ≤ k) := by
  unfold pyListGet
  split
  · rename_i hk
    rw [List.get?_eq_none]
    constructor
    · intro h
      right
      omega
    · intro h
      rcases h with h | h
      · omega
      · omega
  · split
    · rename_i hk h2
      rw [List.get?_eq_none]
      constructor
      · intro h
        omega
      · intro h
        rcases h with h | h
        · omega
        · omega
    · rename_i hk h2
      constructor
      · intro _
        left
        omega
      · intro _
        rfl

theorem pyListGet_neg {α : Type} (l : List α) (k : ℤ)
    (h1 : -(l.length : ℤ) ≤ k) (h2 : k < 0) :
    pyListGet l k = l.get? (k + l.length).toNat := by
  unfold pyListGet
  rw [if_neg (by omega), if_pos (by omega)]

/-- C1: the claim's two-sided invariant `1 ≤ xmin ≤ xmax ≤ W`,
`1 ≤ ymin ≤ ymax ≤ H` fails on the code: a kept detection whose normalized
box lies just above the origin converts to `xmin = ymin = 1` but
`xmax = ymax = 0`, because the code clamps `xmin`/`ymin` only from below
and `xmax`/`ymax` only from above. -/
theorem C1_counterexample :
    buildDetections [tinyBox] [0] [9/10] ["eye"] 200 200 (1/2) =
      Except.ok [tinyDet] ∧
    tinyDet ∈ [tinyDet] ∧
    (1 : ℚ)/2 < tinyDet.confidence ∧
    ¬ tinyDet.box.xmin ≤ tinyDet.box.xmax ∧
    ¬ tinyDet.box.ymin ≤ tinyDet.box.ymax ∧
    ¬ 1 ≤ tinyDet.box.xmax ∧
    ¬ 1 ≤ tinyDet.box.ymax := by
  with_unfolding_all decide

/-- C1 (amended): every detection kept by the confidence filter has
confidence strictly greater than `min_conf`, and its box coordinates
satisfy the one-sided clamps the code actually applies: `1 ≤ xmin`,
`1 ≤ ymin`, `xmax ≤ W`, `ymax ≤ H`.  The orderings `xmin ≤ xmax` and
`ymin ≤ ymax` claimed by the spec are not guaranteed. -/
theorem C1_kept_detection_invariant (boxes : List RawBox)
    (classes scores : List ℚ) (labels : List String) (imH imW : ℕ)
    (minConf : ℚ) (ds : List Detection)
    (hok : buildDetections boxes classes scores labels imH imW minConf =
        Except.ok ds) :
    ∀ d ∈ ds, minConf < d.confidence ∧ 1 ≤ d.box.xmin ∧ 1 ≤ d.box.ymin ∧
      d.box.xmax ≤ (imW : ℤ) ∧ d.box.ymax ≤ (imH : ℤ) := by
  intro d hd
  obtain ⟨hconf, b, hbox⟩ :=
    detFilterLoop_ok_mem boxes classes scores labels imH imW minConf
      (List.range scores.length) ds hok d hd
  rw [hbox]
  exact ⟨hconf, one_le_pixelBox_xmin b imH imW, one_le_pixelBox_ymin b imH imW,
    pixelBox_xmax_le b imH imW, pixelBox_ymax_le b imH imW⟩

theorem C1_witness :
    buildDetections [eyeBoxA, eyeBoxB] [0, 0] [9/10, 4/5] ["eye"] 200 200
        (1/2) = Except.ok [eyeDetA, eyeDetB] ∧
    ((1 : ℚ)/2 < eyeDetA.confidence ∧ 1 ≤ eyeDetA.box.xmin ∧
      1 ≤ eyeDetA.box.ymin ∧ eyeDetA.box.xmax ≤ ((200 : ℕ) : ℤ) ∧
      eyeDetA.box.ymax ≤ ((200 : ℕ) : ℤ)) :=
  ⟨by with_unfolding_all decide,
   C1_kept_detection_invariant [eyeBoxA, eyeBoxB] [0, 0] [9/10, 4/5]
     ["eye"] 200 200 (1/2) [eyeDetA, eyeDetB]
     (by with_unfolding_all decide) eyeDetA (by with_unfolding_all decide)⟩

/-- C2: whenever exactly two detections survive filtering and sorting and
their horizontal centers differ, the detection with the smaller center
`(xmin+xmax)/2` is relabeled `left_eye` and the other `right_eye`,
regardless of the original class labels. -/
theorem C2_two_detection_relabel (boxes : List RawBox)
    (classes scores : List ℚ) (labels : List String) (imH imW : ℕ)
    (minConf : ℚ) (ds : List Detection) (d0 d1 : Detection)
    (hok : buildDetections boxes classes scores labels imH imW minConf =
        Except.ok ds)
    (hsort : sortByConfDesc ds = [d0, d1]) :
    (centerX d0 < centerX d1 →
      postprocessDetections boxes classes scores labels imH imW minConf =
        Except.ok [{ d0 with object := "left_eye" },
                   { d1 with object := "right_eye" }]) ∧
    (centerX d1 < centerX d0 →
      postprocessDetections boxes classes scores labels imH imW minConf =
        Except.ok [{ d0 with object := "right_eye" },
                   { d1 with object := "left_eye" }]) := by
  unfold postprocessDetections
  rw [hok]
  constructor
  · intro hlt
    simp [Except.map, hsort, disambiguate, hlt]
  · intro hlt
    have hnlt : ¬ centerX d0 < centerX d1 := not_lt.mpr hlt.le
    simp [Except.map, hsort, disambiguate, hnlt]

theorem C2_witness :
    postprocessDetections [eyeBoxA, eyeBoxB] [0, 0] [9/10, 4/5] ["eye"]
        200 200 (1/2) =
      Except.ok [{ eyeDetA with object := "left_eye" },
                 { eyeDetB with object := "right_eye" }] :=
  (C2_two_detection_relabel [eyeBoxA, eyeBoxB] [0, 0] [9/10, 4/5] ["eye"]
      200 200 (1/2) [eyeDetA, eyeDetB] eyeDetA eyeDetB
      (by with_unfolding_all decide) (by with_unfolding_all decide)).1
    (by with_unfolding_all decide)

/-- C10: with exactly two detections whose horizontal centers are exactly
equal, the comparison `centers[0] < centers[1]` is false, so the else
branch relabels the first sorted detection `right_eye` and the second
`left_eye`, deterministically. -/
theorem C10_equal_center_tiebreak (boxes : List RawBox)
    (classes scores : List ℚ) (labels : List String) (imH imW : ℕ)
    (minConf : ℚ) (ds : List Detection) (d0 d1 : Detection)
    (hok : buildDetections boxes classes scores labels imH imW minConf =
        Except.ok ds)
    (hsort : sortByConfDesc ds = [d0, d1])
    (heq : centerX d0 = centerX d1) :
    postprocessDetections boxes classes scores labels imH imW minConf =
      Except.ok [{ d0 with object := "right_eye" },
                 { d1 with object := "left_eye" }] := by
  unfold postprocessDetections
  rw [hok]
  have hnlt : ¬ centerX d0 < centerX d1 := by
    rw [heq]
    exact lt_irrefl _
  simp [Except.map, hsort, disambiguate, hnlt]

theorem C10_witness :
    postprocessDetections [tieBoxA, tieBoxB] [0, 0] [9/10, 4/5] ["eye"]
        200 200 (1/2) =
      Except.ok [{ tieDetA with object := "right_eye" },
                 { tieDetB with object := "left_eye" }] :=
  C10_equal_center_tiebreak [tieBoxA, tieBoxB] [0, 0] [9/10, 4/5] ["eye"]
    200 200 (1/2) [tieDetA, tieDetB] tieDetA tieDetB
    (by with_unfolding_all decide) (by with_unfolding_all decide)
    (by with_unfolding_all decide)

/-- C8: with exactly one surviving detection, it is relabeled `left_eye`
when its horizontal center is strictly left of `imW / 2`, and `right_eye`
otherwise. -/
theorem C8_single_detection_relabel (boxes : List RawBox)
    (classes scores : List ℚ) (labels : List String) (imH imW : ℕ)
    (minConf : ℚ) (ds : List Detection) (d : Detection)
    (hok : buildDetections boxes classes scores labels imH imW minConf =
        Except.ok ds)
    (hsort : sortByConfDesc ds = [d]) :
    (centerX d < (imW : ℚ) / 2 →
      postprocessDetections boxes classes scores labels imH imW minConf =
        Except.ok [{ d with object := "left_eye" }]) ∧
    (¬ centerX d < (imW : ℚ) / 2 →
      postprocessDetections boxes classes scores labels imH imW minConf =
        Except.ok [{ d with object := "right_eye" }]) := by
  unfold postprocessDetections
  rw [hok]
  constructor <;> intro h <;> simp [Except.map, hsort, disambiguate, h]

theorem C8_witness :
    postprocessDetections [oneEyeBox] [0] [9/10] ["eye"] 200 200 (1/2) =
      Except.ok [{ oneEyeDet with object := "left_eye" }] :=
  (C8_single_detection_relabel [oneEyeBox] [0] [9/10] ["eye"] 200 200
      (1/2) [oneEyeDet] oneEyeDet (by with_unfolding_all decide)
      (by with_unfolding_all decide)).1 (by with_unfolding_all decide)

/-- C7: the detection list `tflite_detect_image` returns is sorted
descending by confidence (every adjacent pair satisfies
`d_i.confidence ≥ d_{i+1}.confidence`), and the sort is stable: for every
confidence value, the detections carrying it appear in their original
relative order. -/
theorem C7_sorted_descending_stable :
    (∀ (boxes : List RawBox) (classes scores : List ℚ)
        (labels : List String) (imH imW : ℕ) (minConf : ℚ)
        (l : List Detection),
      postprocessDetections boxes classes scores labels imH imW minConf =
          Except.ok l →
      l.Chain' (fun a b => b.confidence ≤ a.confidence)) ∧
    (∀ (ds : List Detection) (c : ℚ),
      (sortByConfDesc ds).filter (fun e => decide (e.confidence = c)) =
        ds.filter (fun e => decide (e.confidence = c))) :=
  ⟨chain_of_postprocess, fun ds c => filter_sortByConfDesc c ds⟩

theorem C7_witness :
    List.Chain' (fun a b : Detection => b.confidence ≤ a.confidence)
      [{ eyeDetA with object := "left_eye" },
       { eyeDetB with object := "right_eye" }] ∧
    (sortByConfDesc [eyeDetA, eyeDetB]).filter
        (fun e => decide (e.confidence = 9/10)) =
      [eyeDetA, eyeDetB].filter (fun e => decide (e.confidence = 9/10)) :=
  ⟨C7_sorted_descending_stable.1 [eyeBoxA, eyeBoxB] [0, 0] [9/10, 4/5]
      ["eye"] 200 200 (1/2) _ (by with_unfolding_all decide),
   C7_sorted_descending_stable.2 [eyeDetA, eyeDetB] (9/10)⟩

/-- C4: after the annotator stores a file, the first `GET /image/<filename>`
returns the stored bytes and deletes the backing file, and a subsequent
retrieval of the same filename answers 404 "File not found"; the file can
never be served twice in sequential execution. -/
theorem C4_single_use_handoff (s0 : ImageStore) (fn : String)
    (bs : List ℕ) :
    (get_image (putImage s0 fn bs) fn).1 = ImageResponse.fileBytes bs ∧
    (get_image (putImage s0 fn bs) fn).2 fn = none ∧
    (get_image ((get_image (putImage s0 fn bs) fn).2) fn).1 =
      ImageResponse.notFound (JsonOut.errorMsg "File not found") ∧
    (get_image ((get_image (putImage s0 fn bs) fn).2) fn).2 fn = none := by
  simp [get_image, putImage]

/-- C3 (amended): for every decoded input image — whatever its original
dimensions or aspect ratio — the preprocessed array's shape is fixed by
the model input shape alone: `inputShape[2]` rows of `inputShape[1]` RGB
pixels.  Because the code passes `(inputShape[1], inputShape[2])` as PIL's
`(width, height)` size, this equals the declared
(height `inputShape[1]`, width `inputShape[2]`, 3) shape exactly when the
model input is square. -/
theorem C3_preprocess_shape (decoder : List ℕ → Option DecodedImage)
    (imageBytes : List ℕ) (inputShape : List ℕ) (arr : List (List RGB))
    (h : preprocess_image decoder imageBytes inputShape = Except.ok arr) :
    arr.length = inputShape.getD 2 0 ∧
    ∀ row ∈ arr, row.length = inputShape.getD 1 0 := by
  unfold preprocess_image at h
  cases hd : decoder imageBytes with
  | none =>
    rw [hd] at h
    cases h
  | some img =>
    rw [hd] at h
    cases h
    constructor
    · simp [npArrayOfImage, pilResize]
    · intro row hrow
      simp only [npArrayOfImage, pilResize, List.mem_map,
        List.mem_range] at hrow
      obtain ⟨y, hy, rfl⟩ := hrow
      simp

theorem C3_witness :
    cexArr.length = cexShape.getD 2 0 :=
  (C3_preprocess_shape cexDecoder [0] cexShape cexArr rfl).1

/-- C3 is false as stated for a non-square declared input shape: with a
declared input shape [1, 3, 4, 3] (height 3, width 4) the array
`preprocess_image` produces has 4 rows, not the 3 the claim requires. -/
theorem C3_counterexample :
    preprocess_image cexDecoder [0] cexShape = Except.ok cexArr ∧
    cexArr.length = 4 ∧
    cexShape.getD 1 0 = 3 ∧
    ¬ cexArr.length = cexShape.getD 1 0 := by
  with_unfolding_all decide

/-- C5 (amended): label resolution is Python list indexing
`labels[int(classes[i])]`: it fails with an `IndexError` exactly when the
truncated class value is at least `len(labels)` or below `-len(labels)`;
a negative index in `[-len(labels), 0)` does not fail and resolves from
the end of the table.  At the loop level, with the three output arrays of
equal length, the filter pass raises `IndexError` iff some index kept by
the confidence test has such an out-of-range class value. -/
theorem C5_label_resolution :
    (∀ (l : List String) (k : ℤ),
      pyListGet l k = none ↔
        (k < -(l.length : ℤ) ∨ (l.length : ℤ) ≤ k)) ∧
    (∀ (l : List String) (k : ℤ), -(l.length : ℤ) ≤ k → k < 0 →
      pyListGet l k = l.get? (k + l.length).toNat) ∧
    (∀ (boxes : List RawBox) (classes scores : List ℚ)
        (labels : List String) (imH imW : ℕ) (minConf : ℚ),
      boxes.length = scores.length → classes.length = scores.length →
      (buildDetections boxes classes scores labels imH imW minConf =
          Except.error PyErr.indexError ↔
        ∃ i ∈ List.range scores.length, ∃ s, scores.get? i = some s ∧
          minConf < s ∧ ∃ c, classes.get? i = some c ∧
            pyListGet labels (pyInt c) = none)) :=
  ⟨fun l k => pyListGet_eq_none_iff l k,
   fun l k h1 h2 => pyListGet_neg l k h1 h2,
   fun boxes classes scores labels imH imW minConf hb hc =>
     detFilterLoop_error_iff boxes classes scores labels imH imW minConf
       hb hc (List.range scores.length) (fun _ hi => List.mem_range.mp hi)⟩

theorem C5_witness :
    buildDetections [eyeBoxA] [5] [9/10] ["eye"] 200 200 (1/2) =
      Except.error PyErr.indexError :=
  (C5_label_resolution.2.2 [eyeBoxA] [5] [9/10] ["eye"] 200 200 (1/2)
      rfl rfl).mpr (by with_unfolding_all decide)

/-- C5 is false as stated: a class value of -1 with a one-entry label
table does not raise; Python resolves `labels[-1]` to the last entry, so
the kept detection is built with that label. -/
theorem C5_counterexample :
    pyInt (-1 : ℚ) = -1 ∧
    pyListGet ["eye"] (-1 : ℤ) = some "eye" ∧
    ¬ pyListGet ["eye"] (-1 : ℤ) = none ∧
    buildDetections [eyeBoxA] [-1] [9/10] ["eye"] 200 200 (1/2) =
      Except.ok [eyeDetA] := by
  with_unfolding_all decide

/-- C6 (amended): when the request's image field decodes to non-empty
bytes that are not a valid encoded image, the resulting decode failure
escapes the `detect` handler uncaught (the framework then answers 500);
the handler never converts it into a 400 JSON error body. -/
theorem C6_decode_error_unhandled (decoder : List ℕ → Option DecodedImage)
    (model : TFModel) (labels : List String) (b64decode : String → List ℕ)
    (host tempFileName field : String)
    (hne : b64decode field ≠ [])
    (hdec : decoder (b64decode field) = none) :
    detect decoder model labels b64decode host tempFileName (some field) =
      HandlerResult.unhandled PyErr.decodeError := by
  cases hl : b64decode field with
  | nil => exact absurd hl hne
  | cons a t =>
    rw [hl] at hdec
    simp [detect, hl, tflite_detect_image, preprocess_image, hdec]

theorem C6_witness :
    oneByte "x" ≠ [] ∧ failDecoder (oneByte "x") = none ∧
    detect failDecoder cexModel ["eye"] oneByte "h" "t" (some "x") =
      HandlerResult.unhandled PyErr.decodeError :=
  ⟨by with_unfolding_all decide, rfl,
   C6_decode_error_unhandled failDecoder cexModel ["eye"] oneByte "h" "t"
     "x" (by with_unfolding_all decide) rfl⟩

/-- C6 is false as stated: on non-empty undecodable bytes the handler's
result is an uncaught exception (surfaced by Flask as a 500), not an HTTP
400 JSON error body. -/
theorem C6_counterexample :
    detect failDecoder cexModel ["eye"] oneByte "h" "t" (some "x") =
      HandlerResult.unhandled PyErr.decodeError ∧
    isResp400 (detect failDecoder cexModel ["eye"] oneByte "h" "t"
      (some "x")) = false := by
  with_unfolding_all decide

/-- C9 (amended): each drawn text is `<label>: <p>%` where `p` is
`int(confidence * 100)` — truncation toward zero, which for the
nonnegative confidences the pipeline produces is the floor of
`confidence * 100`, not rounding to the nearest integer. -/
theorem C9_annotation_label_floor (d : Detection)
    (h : 0 ≤ d.confidence) :
    annotationLabel d =
      d.object ++ ": " ++ toString ⌊d.confidence * 100⌋ ++ "%" ∧
    (⌊d.confidence * 100⌋ : ℚ) ≤ d.confidence * 100 ∧
    d.confidence * 100 < (⌊d.confidence * 100⌋ : ℚ) + 1 := by
  refine ⟨?_, Int.floor_le _, Int.lt_floor_add_one _⟩
  unfold annotationLabel
  rw [pyInt_eq_floor (by positivity)]

theorem C9_witness :
    (0 : ℚ) ≤ pctDet.confidence ∧
    annotationLabel pctDet =
      pctDet.object ++ ": " ++ toString ⌊pctDet.confidence * 100⌋ ++ "%" :=
  ⟨by norm_num [pctDet],
   (C9_annotation_label_floor pctDet (by norm_num [pctDet])).1⟩

/-- C9 is false as stated: a confidence of 0.999 renders as "99%"
(truncation), while rounding to the nearest integer as claimed would
render "100%". -/
theorem C9_counterexample :
    annotationLabel pctDet = "left_eye: 99%" ∧
    pctDet.object ++ ": " ++ toString (round (pctDet.confidence * 100)) ++
        "%" = "left_eye: 100%" ∧
    ¬ annotationLabel pctDet =
        pctDet.object ++ ": " ++
          toString (round (pctDet.confidence * 100)) ++ "%" := by
  have hr : round (pctDet.confidence * 100) = 100 := by
    have hconf : pctDet.confidence * 100 = 999/10 := by norm_num [pctDet]
    rw [hconf, round_eq]
    rw [show (999 : ℚ)/10 + 1/2 = 1004/10 by norm_num]
    exact Int.floor_eq_iff.mpr (by norm_num)
  refine ⟨by with_unfolding_all decide, ?_, ?_⟩
  · rw [hr]
    with_unfolding_all decide
  · rw [hr]
    with_unfolding_all decide
